import Mathlib

/-!
# Verification of `bot/utils/cinema.py` (TapSwapBot)

Shallow embedding of the cinema-mission module: the pydantic data model,
the answer-file store, the catalog filters, the three HTTP action wrappers
and the `complete_cinema_mission` driver, together with theorems settling
the specification claims.

Modelling conventions:
* Timestamps and durations are integers in seconds (`datetime` values in the
  source are produced from millisecond epochs and only ever compared or
  subtracted at whole-second granularity in this module).
* Python `dict` results of the HTTP wrappers are `Option` values: `none`
  stands for the empty-dict failure sentinel `{}`, which is the only falsy
  value those functions return.
* Response texts are `List Char` (Python slicing `[:128]` is per character).
* Exceptions raised by the embedded code (IndexError on a short answer list,
  KeyError on a missing mission id, TypeError on `None` arithmetic) are made
  explicit: file/driver functions return `Option`/an outcome with a crash
  constructor instead of diverging.
* `asyncio.sleep` and the issued HTTP calls are recorded as events; wall-clock
  time is modelled as advancing by exactly the slept amount (HTTP exchanges
  are treated as instantaneous).
* Info-level progress logs do not influence any claim and are not recorded;
  the driver records its warnings, and the wrappers record their error /
  wrong-answer logs.
-/

namespace Cinema

/-- `ActiveMissionItem` (pydantic model): live per-account state of one
mission item.  `verified_at` is `none` when the validator returned `None`
(raw value was not an `int`), mirroring `verified_at: datetime = None`. -/
structure ActiveMissionItem where
  type : String
  verified : Bool := false
  verified_at : Option Int := none
  deriving Repr, DecidableEq

/-- `ActiveMissionItem.is_started`: the verification timestamp is present. -/
def ActiveMissionItem.is_started (it : ActiveMissionItem) : Bool :=
  it.verified_at.isSome

/-- `ActiveMissionItem.remain_time`: seconds elapsed since `verified_at`,
`int((datetime.now() - self.verified_at).total_seconds())`.  The current
time is passed explicitly; the result is `none` when `verified_at` is
absent (in Python that line raises a `TypeError`). -/
def ActiveMissionItem.remain_time (it : ActiveMissionItem) (now : Int) :
    Option Int :=
  it.verified_at.map (fun v => now - v)

/-- `MissionItem` (pydantic model): static definition of one mission item. -/
structure MissionItem where
  name : String
  require_answer : Bool
  title : Option String := none
  wait_duration_s : Option Int := none
  deriving Repr, DecidableEq

/-- `ActiveMission`: mission id plus live item states. -/
structure ActiveMission where
  id : String
  items : List ActiveMissionItem
  deriving Repr, DecidableEq

/-- `Mission` (pydantic model): static mission definition.  `start_at` is
`none` when the `to_dt` validator returned `None`. -/
structure Mission where
  id : String
  title : Option String := none
  reward : Option Int := none
  items : List MissionItem
  start_at : Option Int := none
  deriving Repr, DecidableEq

/-- Decimal digits to a natural number; `none` unless the list is nonempty
and all digits. -/
def digitsToNat (cs : List Char) : Option Nat :=
  if cs ≠ [] ∧ cs.all (·.isDigit) then
    some (cs.foldl (fun acc c => 10 * acc + (c.toNat - '0'.toNat)) 0)
  else none

/-- Python `int(...)` applied to the characters of a string: an optional
sign followed by at least one decimal digit (the surrounding whitespace and
underscores Python also tolerates never occur in mission ids); `none`
models the `ValueError` on anything else. -/
def pyInt (cs : List Char) : Option Int :=
  match cs with
  | '-' :: rest => (digitsToNat rest).map (fun n => -(n : Int))
  | '+' :: rest => (digitsToNat rest).map (fun n => (n : Int))
  | _ => (digitsToNat cs).map (fun n => (n : Int))

/-- `Mission.num`: `int(self.id.replace('M', ''))`.  Replacing every
occurrence of the one-character substring `"M"` by `""` removes every
`'M'` character; `none` models the `ValueError` raised by `int()` on a
string that is not an integer literal. -/
def Mission.num (m : Mission) : Option Int :=
  pyInt (m.id.toList.filter (fun c => c != 'M'))

/-! ## Answer store (`missions.csv`)

The flat file is abstracted to its parsed semicolon-delimited rows (csv
quoting/encoding is handled by Python's `csv` module and out of scope; a
row of width other than 3 would make the tuple unpacking in
`load_answers_from_file` raise, so rows are typed triples).  The missing
file raising `FileNotFoundError` is likewise outside the embedding: both
functions receive the current rows. -/

/-- One row of `missions.csv`: mission id, mission title, answer text. -/
abbrev Row := String × String × String

/-- Sort key used by both `save_missions_to_file` and
`get_visible_cinema_missions`: `m.start_at if m.start_at else datetime.now()`,
with the current time passed explicitly. -/
def sortKey (now : Int) (m : Mission) : Int :=
  m.start_at.getD now

/-- `load_answers_from_file`: fold the rows into a `defaultdict(list)`
mapping each mission id to the answer texts of its rows, in file order.
The result is queried with Python's `in`, so it is modelled as a lookup
returning `none` exactly when no row carries the id. -/
def load_answers_from_file (rows : List Row) (i : String) :
    Option (List String) :=
  let l := (rows.filter (fun r => r.1 = i)).map (fun r => r.2.2)
  if l.isEmpty then none else some l

/-- Effectful-map plumbing for code that raises: apply `f` left to right
and fail at the first `none` (the Python exception aborts the whole
write). -/
def mapO (f : α → Option β) : List α → Option (List β)
  | [] => some []
  | a :: l =>
    match f a, mapO f l with
    | some b, some bs => some (b :: bs)
    | _, _ => none

/-- The rows `save_missions_to_file` writes for one mission: for each item
index `i`, the row `[mission.id, mission.title, answers.get(mission.id, [''])[i]]`.
`csv.writer` renders a `None` title as the empty string; the indexing
raises `IndexError` (`none` here) when the stored answer list — or the
one-element default `['']` — is shorter than the item list. -/
def missionRows (ans : String → Option (List String)) (m : Mission) :
    Option (List Row) :=
  mapO
    (fun i => (((ans m.id).getD [""]).get? i).map
      (fun code => (m.id, m.title.getD "", code)))
    (List.range m.items.length)

/-- `save_missions_to_file`: reload the stored answers, then rewrite the
file with the missions sorted ascending by start time (a missing start
time keyed as `now`; Python's `sorted` is stable, as is `insertionSort`
with this reflexive relation), one row per item.  `none` models the
`IndexError` escaping mid-write. -/
def save_missions_to_file (missions : List Mission) (old : List Row)
    (now : Int) : Option (List Row) :=
  let answers := load_answers_from_file old
  (mapO (missionRows answers)
      (missions.insertionSort (fun a b => sortKey now a ≤ sortKey now b))).map
    List.flatten

/-- The value of `missionRows` in the non-raising case: one row per stored
answer (specification aid for the round-trip theorem). -/
def writtenRows (ans : String → Option (List String)) (m : Mission) :
    List Row :=
  ((ans m.id).getD [""]).map (fun code => (m.id, m.title.getD "", code))

/-! ## HTTP action wrappers

Each wrapper issues one POST and normalises failures.  The observable
outcome of the HTTP exchange is abstracted as `HttpOutcome`:
`exn t` is any exception raised while posting / reading the text / decoding
the JSON body (with `t` the value of the local `response_text` at that
moment — `[]` when the POST itself failed), and `resp status text body` a
completed exchange with parsed JSON body.  `aiohttp`'s
`raise_for_status` raises exactly when `status ≥ 400`. -/

/-- Parsed JSON response body, as far as the wrappers inspect it:
`message` is the field read by `response_json.get('message', '')`. -/
structure Body where
  message : Option String := none
  deriving Repr, DecidableEq

/-- Observable outcome of one HTTP exchange. -/
inductive HttpOutcome where
  | exn (partialText : List Char)
  | resp (status : Nat) (text : List Char) (body : Body)
  deriving Repr, DecidableEq

/-- Side effects the wrappers perform.  `logError s` is the generic
`logger.error(... Response text: ...)` line carrying the truncated response
text (HTML-escaping by the out-of-scope `escape_html` helper is not
modelled; the 128-character truncation is).  `logWrongAnswer` is the
distinct `Wrong answer for Mission Item` log line (emitted via
`logger.error` in the source). -/
inductive WEvent where
  | logError (truncatedText : List Char)
  | logWrongAnswer
  | sleep (seconds : Nat)
  deriving Repr, DecidableEq

/-- `join_mission`: POST `join_mission`, return the parsed JSON on success;
on any exception (including the `raise_for_status` on `status ≥ 400`) log
with the response text truncated to 128 characters, sleep 3 s and return
the empty dict (`none`). -/
def join_mission (o : HttpOutcome) : List WEvent × Option Body :=
  match o with
  | .exn t => ([.logError (t.take 128), .sleep 3], none)
  | .resp status text body =>
    if 400 ≤ status then ([.logError (text.take 128), .sleep 3], none)
    else ([], some body)

/-- `finish_mission_item`: as `join_mission`, except that a completed
exchange with status 400 whose body's `message` is `"invalid_answer"` logs
the distinct wrong-answer line and returns the empty dict with no sleep,
before `raise_for_status` is reached. -/
def finish_mission_item (o : HttpOutcome) : List WEvent × Option Body :=
  match o with
  | .exn t => ([.logError (t.take 128), .sleep 3], none)
  | .resp status text body =>
    if status = 400 ∧ body.message.getD "" = "invalid_answer" then
      ([.logWrongAnswer], none)
    else if 400 ≤ status then ([.logError (text.take 128), .sleep 3], none)
    else ([], some body)

/-- `finish_mission`: same failure contract as `join_mission`. -/
def finish_mission (o : HttpOutcome) : List WEvent × Option Body :=
  match o with
  | .exn t => ([.logError (t.take 128), .sleep 3], none)
  | .resp status text body =>
    if 400 ≤ status then ([.logError (text.take 128), .sleep 3], none)
    else ([], some body)

/-! ## Account data and catalog filters -/

/-- The slice of the `account_data` dict this module reads:
`conf.missions` (validated into `Mission` records), `account.missions.completed`,
`account.missions.active` (validated into `ActiveMission` records) and
`player.videos`. -/
structure AccountData where
  confMissions : List Mission
  completed : List String
  active : List ActiveMission
  playerVideos : Nat := 0
  deriving Repr, DecidableEq

/-- `get_cinema_missions`: validate `conf.missions` and keep those with
`num >= 1000`.  Evaluating `num` raises when the id (with `'M'`s removed)
is not an integer literal; `none` models that exception escaping. -/
def get_cinema_missions (a : AccountData) : Option (List Mission) :=
  if a.confMissions.all (fun m => m.num.isSome) then
    some (a.confMissions.filter (fun m => 1000 ≤ m.num.getD 0))
  else none

/-- `get_visible_cinema_missions`: drop missions whose id is in the
completed list, sort by start time descending (missing start time keyed as
`now`; Python's `sorted(..., reverse=True)` is a stable descending sort,
as is `insertionSort` with this reflexive relation), keep the first 4. -/
def get_visible_cinema_missions (a : AccountData) (now : Int) :
    Option (List Mission) :=
  (get_cinema_missions a).map fun cinema =>
    let actual := cinema.filter (fun m => m.id ∉ a.completed)
    (actual.insertionSort (fun x y => sortKey now y ≤ sortKey now x)).take 4

/-- `get_active_missions`: the dict `{m.id: m for m in active}` as a lookup
function.  A Python dict comprehension keeps the last entry for a duplicate
key, hence the search over the reversed list. -/
def get_active_missions (a : AccountData) : String → Option ActiveMission :=
  fun i => a.active.reverse.find? (fun m => m.id = i)

/-- The ordinal exactly as the specification words it: the integer value of
the mission id with its leading `'M'` removed (and nothing else changed);
used to compare `Mission.num` (which strips every `'M'`) against the
spec's description. -/
def specNum (id : String) : Option Int :=
  match id.toList with
  | 'M' :: rest => pyInt rest
  | _ => none

/-! ## Mission driver (`complete_cinema_mission`)

The driver's awaited wrapper calls are abstracted by an oracle
`Nat → Option AccountData` giving the dict each successive call returns
(`none` = the `{}` failure sentinel; a successful call's JSON is the new
account snapshot).  Wrapper-internal logs/sleeps live in the wrapper model
above; driver events record the driver's own sleeps, the calls it issues
and its warnings.  Wall-clock time advances by exactly the slept amount. -/

/-- Driver-level observable actions, in program order. -/
inductive Event where
  | sleep (seconds : Int)
  | callJoin (id : String)
  | callFinishItem (id : String) (itemIndex : Nat) (userInput : Option String)
  | callFinishMission (id : String)
  | warnJoinFailed
  | warnMissingAnswer (itemIndex : Nat)
  deriving Repr, DecidableEq

/-- Python exceptions the driver body itself can raise (none of them is
caught in the source). -/
inductive CrashKind where
  /-- `IndexError`: `active_mission.items[i]` out of range. -/
  | itemsIndex
  /-- `IndexError`: `answers[mission.id][i]` out of range. -/
  | answersIndex
  /-- `TypeError` inside `remain_time()`: `verified_at` is `None`. -/
  | remainNone
  /-- `TypeError`: arithmetic or comparison on a `None` `wait_duration_s`. -/
  | waitNone
  /-- `KeyError`: `get_active_missions(snapshot)[mission.id]` after a
  successful call whose snapshot no longer lists the mission. -/
  | activeKey
  deriving Repr, DecidableEq

/-- Result of one driver invocation: a normal return (`ret` is the final
value of the `account_data` variable, `none` = `{}`) or an escaped
exception. -/
inductive DriverOutcome where
  | ok (ret : Option AccountData)
  | crash (c : CrashKind)
  deriving Repr, DecidableEq

/-- The driver's mutable locals: accumulated events, number of wrapper
calls already made (`oracle k` is the next call's result), current time,
the `account_data` variable (reassigned by every walrus call, `none` after
a failed one) and the `active_mission` variable. -/
structure St where
  events : List Event
  k : Nat
  clock : Int
  accountData : Option AccountData
  activeMission : ActiveMission
  deriving Repr, DecidableEq

/-- Per-item processing after `wait_seconds` is known (`waitS`, still the
raw `Option` in the start branch): `if wait_seconds > 0: sleep`, then, when
the (pre-refresh) active item is unverified, the verifying
`finish_mission_item` call; the walrus assigns its result to `account_data`
even on failure.  `none > 0` raises (`waitNone`). -/
def itemWait (mid : String) (oracle : Nat → Option AccountData) (i : Nat)
    (ai : ActiveMissionItem) (answer : Option String) (waitS : Option Int)
    (st : St) : St × Option CrashKind :=
  match waitS with
  | none => (st, some .waitNone)
  | some w =>
    let st1 : St := if 0 < w then
        { st with events := st.events ++ [Event.sleep w], clock := st.clock + w }
      else st
    if ai.verified then (st1, none)
    else
      let r := oracle st1.k
      let st2 := { st1 with
        events := st1.events ++ [Event.callFinishItem mid i answer],
        k := st1.k + 1 }
      match r with
      | none => ({ st2 with accountData := none }, none)
      | some a' =>
        match get_active_missions a' mid with
        | none => ({ st2 with accountData := some a' }, some .activeKey)
        | some am' =>
          ({ st2 with accountData := some a', activeMission := am' }, none)

/-- The answer lookup: `answer = None`; when the item requires one, take
`answers[mission.id][i]` if the id is stored (`IndexError` when the list is
shorter), and on a falsy answer (`None` or `''`) log the missing-answer
warning and skip the item. -/
def itemTail (mid : String) (answers : String → Option (List String))
    (oracle : Nat → Option AccountData) (i : Nat) (item : MissionItem)
    (ai : ActiveMissionItem) (waitS : Option Int) (st : St) :
    St × Option CrashKind :=
  if item.require_answer then
    match answers mid with
    | some lst =>
      match lst.get? i with
      | none => (st, some .answersIndex)
      | some s =>
        if s = "" then
          ({ st with events := st.events ++ [Event.warnMissingAnswer i] }, none)
        else itemWait mid oracle i ai (some s) waitS st
    | none => ({ st with events := st.events ++ [Event.warnMissingAnswer i] }, none)
  else itemWait mid oracle i ai none waitS st

/-- One iteration of the driver's `for i, item in enumerate(mission.items)`
loop.  An un-started, unverified item first gets the 5 s courtesy sleep and
the registering `finish_mission_item` call (default empty `user_input`); on
its failure the item is skipped (`continue`), on success `wait_seconds`
becomes the raw `wait_duration_s` and the active mission is rebuilt from
the response.  Otherwise `wait_seconds = wait_duration_s - remain_time()`,
evaluating `remain_time` first (`remainNone` before `waitNone`, matching
Python's evaluation order). -/
def itemStep (mid : String) (answers : String → Option (List String))
    (oracle : Nat → Option AccountData) (i : Nat) (item : MissionItem)
    (st : St) : St × Option CrashKind :=
  match st.activeMission.items.get? i with
  | none => (st, some .itemsIndex)
  | some ai =>
    if !ai.verified && !ai.is_started then
      let st1 := { st with
        events := st.events ++ [Event.sleep 5], clock := st.clock + 5 }
      let r := oracle st1.k
      let st2 := { st1 with
        events := st1.events ++ [Event.callFinishItem mid i none],
        k := st1.k + 1 }
      match r with
      | none => ({ st2 with accountData := none }, none)
      | some a' =>
        match get_active_missions a' mid with
        | none => ({ st2 with accountData := some a' }, some .activeKey)
        | some am' =>
          itemTail mid answers oracle i item ai item.wait_duration_s
            { st2 with accountData := some a', activeMission := am' }
    else
      match ai.remain_time st.clock with
      | none => (st, some .remainNone)
      | some rt =>
        match item.wait_duration_s with
        | none => (st, some .waitNone)
        | some dur =>
          itemTail mid answers oracle i item ai (some (dur - rt)) st

/-- The item loop over the enumerated item list; a raised exception aborts
the remaining iterations. -/
def itemLoop (mid : String) (answers : String → Option (List String))
    (oracle : Nat → Option AccountData) :
    List (Nat × MissionItem) → St → St × Option CrashKind
  | [], st => (st, none)
  | (i, item) :: rest, st =>
    match itemStep mid answers oracle i item st with
    | (st', none) => itemLoop mid answers oracle rest st'
    | (st', some c) => (st', some c)

/-- After the loop: when every item of the (latest) active mission is
verified, sleep 5 s and call `finish_mission`, the walrus again assigning
its result to `account_data`; then `return account_data`.  (The reward log
reads `player.videos`, a total field of the model.) -/
def finishPhase (mid : String) (oracle : Nat → Option AccountData)
    (st : St) : List Event × Nat × DriverOutcome :=
  if st.activeMission.items.all (fun it => it.verified) then
    let st1 := { st with
      events := st.events ++ [Event.sleep 5], clock := st.clock + 5 }
    let r := oracle st1.k
    let st2 := { st1 with
      events := st1.events ++ [Event.callFinishMission mid], k := st1.k + 1 }
    match r with
    | none => (st2.events, st2.k, .ok none)
    | some a' => (st2.events, st2.k, .ok (some a'))
  else (st.events, st.k, .ok st.accountData)

/-- Item loop followed by the finish phase. -/
def mainRun (mission : Mission) (answers : String → Option (List String))
    (oracle : Nat → Option AccountData) (st : St) :
    List Event × Nat × DriverOutcome :=
  match itemLoop mission.id answers oracle mission.items.enum st with
  | (st', none) => finishPhase mission.id oracle st'
  | (st', some c) => (st'.events, st'.k, .crash c)

/-- `complete_cinema_mission`: when the mission is not in the active
snapshot of the input, sleep 5 s and join; a failed join returns `{}`, a
join whose snapshot still lacks the mission logs a warning and returns
`{}`, and otherwise the run continues on the snapshot rebuilt from the
join response.  Returns `(events, number of calls made, outcome)`. -/
def complete_cinema_mission (mission : Mission) (a0 : AccountData)
    (answers : String → Option (List String))
    (oracle : Nat → Option AccountData) (now : Int) :
    List Event × Nat × DriverOutcome :=
  match get_active_missions a0 mission.id with
  | some am =>
    mainRun mission answers oracle
      { events := [], k := 0, clock := now,
        accountData := some a0, activeMission := am }
  | none =>
    match oracle 0 with
    | none => ([.sleep 5, .callJoin mission.id], 1, .ok none)
    | some a1 =>
      match get_active_missions a1 mission.id with
      | none =>
        ([.sleep 5, .callJoin mission.id, .warnJoinFailed], 1, .ok none)
      | some am =>
        mainRun mission answers oracle
          { events := [.sleep 5, .callJoin mission.id], k := 1,
            clock := now + 5, accountData := some a1, activeMission := am }

/-- The driver's `account_data` variable always holds the result of the
most recent wrapper call (its walrus assignment), or the input snapshot
before any call was made. -/
def RetInv (a0 : AccountData) (oracle : Nat → Option AccountData)
    (st : St) : Prop :=
  st.accountData = if st.k = 0 then some a0 else oracle (st.k - 1)

/-- An active mission item reported verified always carries its
verification timestamp. -/
def GoodMission (m : ActiveMission) : Bool :=
  m.items.all (fun it => !it.verified || it.verified_at.isSome)

/-- Every active mission of the snapshot satisfies `GoodMission`. -/
def GoodAcc (a : AccountData) : Bool :=
  a.active.all GoodMission

end Cinema

namespace Cinema

/-- C3: HTTP 400 with body message `invalid_answer` makes
`finish_mission_item` return the empty result after the distinct
wrong-answer log, with no generic error log and no backoff sleep. -/
theorem finish_mission_item_invalid_answer
    (text : List Char) (body : Body)
    (h : body.message = some "invalid_answer") :
    finish_mission_item (.resp 400 text body) = ([.logWrongAnswer], none) := by
  simp [finish_mission_item, h]

theorem finish_mission_item_invalid_answer_witness :
    finish_mission_item (.resp 400 "bad".toList ⟨some "invalid_answer"⟩)
      = ([.logWrongAnswer], none) :=
  finish_mission_item_invalid_answer "bad".toList ⟨some "invalid_answer"⟩ rfl

/-- C9: none of the three wrappers lets an exception escape (they are total
functions of the exchange outcome), and every failure path — every outcome
on which the wrapper returns the empty dict — logs the error with at most
128 characters of response text and sleeps 3 seconds, except the
invalid-answer path of `finish_mission_item`, which performs the distinct
wrong-answer log only. -/
theorem wrappers_failure_contract (o : HttpOutcome) :
    ((join_mission o).2 = none →
      ∃ t, join_mission o = ([.logError t, .sleep 3], none) ∧ t.length ≤ 128) ∧
    ((finish_mission o).2 = none →
      ∃ t, finish_mission o = ([.logError t, .sleep 3], none) ∧ t.length ≤ 128) ∧
    ((finish_mission_item o).2 = none →
      (∃ t, finish_mission_item o = ([.logError t, .sleep 3], none) ∧
         t.length ≤ 128) ∨
      finish_mission_item o = ([.logWrongAnswer], none)) := by
  obtain ⟨t⟩ | ⟨status, text, body⟩ := o
  · refine ⟨fun _ => ⟨t.take 128, ?_, ?_⟩, fun _ => ⟨t.take 128, ?_, ?_⟩,
      fun _ => Or.inl ⟨t.take 128, ?_, ?_⟩⟩ <;>
      simp [join_mission, finish_mission, finish_mission_item,
        List.length_take]
  · by_cases hs : 400 ≤ status
    · by_cases hm : status = 400 ∧ body.message.getD "" = "invalid_answer"
      · refine ⟨?_, ?_, fun _ => Or.inr ?_⟩ <;>
          simp [join_mission, finish_mission, finish_mission_item, hs, hm,
            List.length_take]
      · refine ⟨fun _ => ⟨text.take 128, ?_, ?_⟩,
          fun _ => ⟨text.take 128, ?_, ?_⟩,
          fun _ => Or.inl ⟨text.take 128, ?_, ?_⟩⟩ <;>
          simp [join_mission, finish_mission, finish_mission_item, hs, hm,
            List.length_take]
    · have hm : ¬(status = 400 ∧ body.message.getD "" = "invalid_answer") := by
        rintro ⟨h, -⟩; exact hs (le_of_eq h.symm)
      refine ⟨?_, ?_, ?_⟩ <;>
        simp [join_mission, finish_mission, finish_mission_item, hs, hm]

theorem wrappers_failure_contract_witness :
    ((join_mission (.exn [])).2 = none →
      ∃ t, join_mission (.exn []) = ([.logError t, .sleep 3], none) ∧
        t.length ≤ 128) := by
  exact (wrappers_failure_contract (.exn [])).1

/-- C7: whenever `get_visible_cinema_missions` returns a list, that list
contains no completed mission id, has at most 4 elements, and is sorted by
start time descending, a missing start time keyed as the current time
(i.e. "most recent"). -/
theorem visible_cinema_missions_spec (a : AccountData) (now : Int)
    (r : List Mission) (h : get_visible_cinema_missions a now = some r) :
    (∀ m ∈ r, m.id ∉ a.completed) ∧ r.length ≤ 4 ∧
      r.Sorted (fun x y => sortKey now y ≤ sortKey now x) := by
  obtain ⟨cinema, -, hr⟩ := Option.map_eq_some'.mp h
  subst hr
  refine ⟨?_, List.length_take_le .., ?_⟩
  · intro m hm
    have h1 := List.mem_insertionSort
      (r := fun x y => sortKey now y ≤ sortKey now x)
      |>.mp (List.mem_of_mem_take hm)
    have h2 := List.of_mem_filter h1
    simpa using h2
  · haveI : IsTotal Mission (fun x y => sortKey now y ≤ sortKey now x) :=
      ⟨fun x y => le_total _ _⟩
    haveI : IsTrans Mission (fun x y => sortKey now y ≤ sortKey now x) :=
      ⟨fun _ _ _ hab hbc => le_trans hbc hab⟩
    exact List.Pairwise.sublist (List.take_sublist _ _)
      (List.sorted_insertionSort _ _)

theorem visible_cinema_missions_spec_witness :
    (∀ m ∈ ([⟨"M1002", none, none, [], some 5⟩] : List Mission),
        Mission.id m ∉ (["M1001"] : List String)) ∧
      ([(⟨"M1002", none, none, [], some 5⟩ : Mission)]).length ≤ 4 ∧
      List.Sorted (fun x y => sortKey 100 y ≤ sortKey 100 x)
        [(⟨"M1002", none, none, [], some 5⟩ : Mission)] := by
  have := visible_cinema_missions_spec
    ⟨[⟨"M1001", none, none, [], none⟩, ⟨"M1002", none, none, [], some 5⟩],
      ["M1001"], [], 0⟩ 100
    [⟨"M1002", none, none, [], some 5⟩] (by decide)
  exact this

/-- C8: for a mission of the configured list whose id is `"M"` followed by
digits, `get_cinema_missions` keeps it exactly when its ordinal is at least
1000, and the ordinal `num` (which strips every `'M'`) coincides with the
integer value of the id with only its leading `'M'` removed. -/
theorem cinema_missions_ordinal (a : AccountData) (r : List Mission)
    (m : Mission) (s : String) (h : get_cinema_missions a = some r)
    (hm : m ∈ a.confMissions) (hid : m.id = "M" ++ s)
    (hdig : ∀ c ∈ s.toList, c.isDigit) :
    m.num = specNum m.id ∧ (m ∈ r ↔ 1000 ≤ m.num.getD 0) := by
  have hlist : m.id.toList = 'M' :: s.toList := by
    rw [hid]
    simp [String.toList]
  have hdata : m.id.data = 'M' :: s.data := hlist
  have hfil : s.toList.filter (fun c => c != 'M') = s.toList := by
    refine List.filter_eq_self.mpr (fun c hc => ?_)
    have hd := hdig c hc
    simp only [bne_iff_ne, ne_eq]
    rintro rfl
    exact absurd hd (by decide)
  have hnum : m.num = pyInt s.toList := by
    simp only [Mission.num, hlist, List.filter]
    have : ('M' != 'M') = false := by decide
    rw [this]
    exact congrArg pyInt hfil
  constructor
  · rw [hnum]
    simp only [specNum, hlist]
  · simp only [get_cinema_missions] at h
    by_cases hall : a.confMissions.all (fun m => m.num.isSome)
    · simp only [hall, if_pos] at h
      obtain rfl := Option.some.injEq .. ▸ h
      simp [List.mem_filter, hm]
    · simp [hall] at h

theorem mapO_eq_map_of_forall {f : α → Option β} {g : α → β} :
    ∀ {l : List α}, (∀ x ∈ l, f x = some (g x)) → mapO f l = some (l.map g)
  | [], _ => rfl
  | a :: l, h => by
    have ha := h a (List.mem_cons_self a l)
    have hl := mapO_eq_map_of_forall (fun x hx => h x (List.mem_cons_of_mem a hx))
    simp [mapO, ha, hl]

theorem mapO_map (f : β → Option γ) (h : α → β) :
    ∀ l : List α, mapO f (l.map h) = mapO (fun a => f (h a)) l
  | [] => rfl
  | a :: l => by simp [mapO, mapO_map f h l]

theorem mapO_range_get (g : β → γ) :
    ∀ lst : List β,
      mapO (fun i => (lst.get? i).map g) (List.range lst.length)
        = some (lst.map g)
  | [] => rfl
  | x :: rest => by
    rw [List.length_cons, List.range_succ_eq_map]
    simp only [mapO, List.get?, Option.map_some', mapO_map]
    rw [mapO_range_get g rest]
    rfl

theorem filter_flatten (p : α → Bool) :
    ∀ L : List (List α),
      L.flatten.filter p = (L.map (fun l => l.filter p)).flatten
  | [] => rfl
  | l :: L => by
    simp [List.filter_append, filter_flatten p L]

theorem writtenRows_fst (ans : String → Option (List String)) (m : Mission)
    (r : Row) (hr : r ∈ writtenRows ans m) : r.1 = m.id := by
  obtain ⟨code, -, rfl⟩ := List.mem_map.mp hr
  rfl

theorem filter_writtenRows_self (ans : String → Option (List String))
    (m : Mission) :
    (writtenRows ans m).filter (fun r => r.1 = m.id) = writtenRows ans m :=
  List.filter_eq_self.mpr fun r hr => by
    simp [writtenRows_fst ans m r hr]

theorem filter_writtenRows_ne (ans : String → Option (List String))
    (m' : Mission) (mid : String) (h : m'.id ≠ mid) :
    (writtenRows ans m').filter (fun r => r.1 = mid) = [] :=
  List.filter_eq_nil_iff.mpr fun r hr => by
    simp [writtenRows_fst ans m' r hr, h]

theorem flatten_filter_blocks_nil (ans : String → Option (List String))
    (mid : String) :
    ∀ L : List Mission, mid ∉ L.map Mission.id →
      ((L.map (writtenRows ans)).flatten).filter (fun r => r.1 = mid) = []
  | [], _ => rfl
  | m' :: L, h => by
    have h1 : m'.id ≠ mid := fun he => h (by simp [← he])
    have h2 : mid ∉ L.map Mission.id := fun he => h (by simp [he])
    simp only [List.map_cons, List.flatten_cons, List.filter_append,
      filter_writtenRows_ne ans m' mid h1,
      flatten_filter_blocks_nil ans mid L h2, List.nil_append]

theorem flatten_filter_blocks (ans : String → Option (List String))
    (m : Mission) :
    ∀ L : List Mission, (L.map Mission.id).Nodup → m ∈ L →
      ((L.map (writtenRows ans)).flatten).filter (fun r => r.1 = m.id)
        = writtenRows ans m
  | [], _, hm => absurd hm (List.not_mem_nil m)
  | m' :: L, hnd, hm => by
    have hnd' : (L.map Mission.id).Nodup := (List.nodup_cons.mp hnd).2
    have hhd : m'.id ∉ L.map Mission.id := (List.nodup_cons.mp hnd).1
    rcases List.mem_cons.mp hm with rfl | hm'
    · have : m.id ∉ L.map Mission.id := hhd
      simp only [List.map_cons, List.flatten_cons, List.filter_append,
        filter_writtenRows_self ans m,
        flatten_filter_blocks_nil ans m.id L this, List.append_nil]
    · have hne : m'.id ≠ m.id := fun he =>
        hhd (he ▸ List.mem_map_of_mem Mission.id hm')
      simp only [List.map_cons, List.flatten_cons, List.filter_append,
        filter_writtenRows_ne ans m' m.id hne,
        flatten_filter_blocks ans m L hnd' hm', List.nil_append]

theorem load_answers_eq (rows : List Row) (i : String) :
    load_answers_from_file rows i =
      if ((rows.filter (fun r => r.1 = i)).map (fun r => r.2.2)).isEmpty
      then none
      else some ((rows.filter (fun r => r.1 = i)).map (fun r => r.2.2)) :=
  rfl

theorem load_answers_ne_nil {rows : List Row} {i : String}
    {l : List String} (h : load_answers_from_file rows i = some l) :
    l ≠ [] := by
  rw [load_answers_eq] at h
  split at h
  · exact absurd h (by simp)
  · rename_i hne
    obtain rfl := Option.some.inj h
    simpa [List.isEmpty_iff] using hne

/-- C2, amended: when the mission ids are pairwise distinct and, for every
mission, the stored answer list (or the one-element blank default used when
the id is absent) has exactly as many entries as the mission has items,
`save_missions_to_file` succeeds and writes exactly one row per item of
every mission, and `load_answers_from_file` on the written rows returns,
for each mission id that had stored answers, the same positional answer
sequence as before the save. -/
theorem save_load_round_trip (missions : List Mission) (old : List Row)
    (now : Int) (hids : (missions.map Mission.id).Nodup)
    (hlen : ∀ m ∈ missions,
      ((load_answers_from_file old m.id).getD [""]).length
        = m.items.length) :
    ∃ rows, save_missions_to_file missions old now = some rows ∧
      ∀ m ∈ missions,
        (rows.filter (fun r => r.1 = m.id)).length = m.items.length ∧
        ∀ l, load_answers_from_file old m.id = some l →
          load_answers_from_file rows m.id = some l := by
  have hperm : List.Perm (missions.insertionSort
      (fun a b => sortKey now a ≤ sortKey now b)) missions :=
    List.perm_insertionSort _ _
  have hsnodup : ((missions.insertionSort
      (fun a b => sortKey now a ≤ sortKey now b)).map Mission.id).Nodup :=
    ((hperm.map Mission.id).nodup_iff).mpr hids
  have hrows : mapO (missionRows (load_answers_from_file old))
      (missions.insertionSort (fun a b => sortKey now a ≤ sortKey now b))
      = some ((missions.insertionSort
          (fun a b => sortKey now a ≤ sortKey now b)).map
            (writtenRows (load_answers_from_file old))) := by
    apply mapO_eq_map_of_forall
    intro m hm
    have hl := hlen m (hperm.mem_iff.mp hm)
    unfold missionRows writtenRows
    rw [← hl]
    exact mapO_range_get _ _
  refine ⟨((missions.insertionSort
      (fun a b => sortKey now a ≤ sortKey now b)).map
        (writtenRows (load_answers_from_file old))).flatten, ?_, ?_⟩
  · show (mapO (missionRows (load_answers_from_file old))
        (missions.insertionSort
          (fun a b => sortKey now a ≤ sortKey now b))).map List.flatten = _
    rw [hrows]
    rfl
  · intro m hm
    have hmem : m ∈ missions.insertionSort
        (fun a b => sortKey now a ≤ sortKey now b) := hperm.mem_iff.mpr hm
    have hfil := flatten_filter_blocks (load_answers_from_file old) m _
      hsnodup hmem
    constructor
    · rw [hfil]
      unfold writtenRows
      rw [List.length_map]
      exact hlen m hm
    · intro l hload
      have hlne : l ≠ [] := load_answers_ne_nil hload
      rw [load_answers_eq, hfil]
      unfold writtenRows
      rw [hload]
      simp only [Option.getD_some, List.map_map]
      have hmap : l.map ((fun (r : Row) => r.2.2) ∘
          (fun code => (m.id, m.title.getD "", code))) = l := by
        show l.map (fun code => code) = l
        exact List.map_id' l
      rw [hmap]
      simp [List.isEmpty_iff, hlne]

theorem save_load_round_trip_witness :
    ∃ rows, save_missions_to_file
        [⟨"M1500", some "t", none, [⟨"a", true, none, none⟩], none⟩]
        [("M1500", "t", "42")] 0 = some rows ∧
      ∀ m ∈ ([⟨"M1500", some "t", none, [⟨"a", true, none, none⟩], none⟩] :
          List Mission),
        (rows.filter (fun r => r.1 = m.id)).length = m.items.length ∧
        ∀ l, load_answers_from_file [("M1500", "t", "42")] m.id = some l →
          load_answers_from_file rows m.id = some l := by
  have := save_load_round_trip
    [⟨"M1500", some "t", none, [⟨"a", true, none, none⟩], none⟩]
    [("M1500", "t", "42")] 0 (by decide) (by decide)
  exact this

/-- C2, counterexample: with an empty answer file, saving a mission that
has two items raises `IndexError` on the second item (the lookup default
`['']` has a single element), so no row per item is written — the save
fails instead. -/
theorem save_missions_to_file_index_error :
    save_missions_to_file
      [⟨"M1500", none, none,
        [⟨"a", false, none, none⟩, ⟨"b", false, none, none⟩], none⟩]
      [] 0 = none := by
  decide

/-- C6: with the mission absent from the input's active snapshot, the
driver sleeps 5 s and joins; a failed join returns the failure indicator
with no item processed, a join whose snapshot still lacks the mission warns
and returns the failure indicator with no item processed, and otherwise
the run continues (`mainRun`) on the state rebuilt from the join
response. -/
theorem driver_join_phase (mission : Mission) (a0 : AccountData)
    (answers : String → Option (List String))
    (oracle : Nat → Option AccountData) (now : Int)
    (h : get_active_missions a0 mission.id = none) :
    (oracle 0 = none →
      complete_cinema_mission mission a0 answers oracle now
        = ([.sleep 5, .callJoin mission.id], 1, .ok none)) ∧
    (∀ a1, oracle 0 = some a1 → get_active_missions a1 mission.id = none →
      complete_cinema_mission mission a0 answers oracle now
        = ([.sleep 5, .callJoin mission.id, .warnJoinFailed], 1, .ok none)) ∧
    (∀ a1 am, oracle 0 = some a1 →
      get_active_missions a1 mission.id = some am →
      complete_cinema_mission mission a0 answers oracle now
        = mainRun mission answers oracle
            { events := [.sleep 5, .callJoin mission.id], k := 1,
              clock := now + 5, accountData := some a1,
              activeMission := am }) := by
  refine ⟨fun ho => ?_, fun a1 ho ha => ?_, fun a1 am ho ha => ?_⟩
  · simp [complete_cinema_mission, h, ho]
  · simp [complete_cinema_mission, h, ho, ha]
  · simp [complete_cinema_mission, h, ho, ha]

theorem driver_join_phase_witness :
    complete_cinema_mission ⟨"M1500", none, none, [], none⟩ ⟨[], [], [], 0⟩
        (fun _ => none) (fun _ => none) 0
      = ([.sleep 5, .callJoin "M1500"], 1, .ok none) := by
  have := driver_join_phase ⟨"M1500", none, none, [], none⟩ ⟨[], [], [], 0⟩
    (fun _ => none) (fun _ => none) 0 rfl
  exact this.1 rfl

theorem itemWait_mono (mid : String) (oracle : Nat → Option AccountData)
    (i : Nat) (ai : ActiveMissionItem) (answer : Option String)
    (waitS : Option Int) (st : St) :
    st.events <+: (itemWait mid oracle i ai answer waitS st).1.events := by
  unfold itemWait
  rcases waitS with _ | w
  · exact List.prefix_refl _
  · dsimp only
    by_cases hw : 0 < w <;> by_cases hv : ai.verified = true <;>
      simp only [hw, hv, if_true, if_false, ite_true, ite_false] <;>
      (try exact List.prefix_append _ _) <;>
      (try exact List.prefix_refl _) <;>
      rcases oracle st.k with _ | a' <;> (try dsimp only) <;>
      (try cases get_active_missions a' mid) <;> (try dsimp only) <;>
      first
        | exact List.prefix_append _ _
        | exact ((List.prefix_append _ _).trans
            (List.prefix_append _ _)).trans (List.prefix_refl _)

theorem itemTail_mono (mid : String)
    (answers : String → Option (List String))
    (oracle : Nat → Option AccountData) (i : Nat) (item : MissionItem)
    (ai : ActiveMissionItem) (waitS : Option Int) (st : St) :
    st.events <+: (itemTail mid answers oracle i item ai waitS st).1.events := by
  unfold itemTail
  by_cases hr : item.require_answer = true <;>
    simp only [hr, if_true, if_false, ite_true, ite_false]
  · rcases answers mid with _ | lst <;> (try dsimp only)
    · exact List.prefix_append _ _
    · rcases lst.get? i with _ | s <;> (try dsimp only)
      · exact List.prefix_refl _
      · by_cases hs : s = "" <;>
          simp only [hs, if_true, if_false, ite_true, ite_false]
        · exact List.prefix_append _ _
        · exact itemWait_mono ..
  · exact itemWait_mono ..

theorem itemStep_mono (mid : String)
    (answers : String → Option (List String))
    (oracle : Nat → Option AccountData) (i : Nat) (item : MissionItem)
    (st : St) :
    st.events <+: (itemStep mid answers oracle i item st).1.events := by
  unfold itemStep
  rcases st.activeMission.items.get? i with _ | ai <;> dsimp only
  · exact List.prefix_refl _
  · by_cases hc : (!ai.verified && !ai.is_started) = true <;>
      simp only [hc, if_true, if_false, ite_true, ite_false]
    · rcases oracle st.k with _ | a' <;> (try dsimp only)
      · exact (List.prefix_append _ _).trans (List.prefix_append _ _)
      · rcases get_active_missions a' mid with _ | am' <;> (try dsimp only)
        · exact (List.prefix_append _ _).trans (List.prefix_append _ _)
        · exact ((List.prefix_append _ _).trans
            (List.prefix_append _ _)).trans
            (itemTail_mono mid answers oracle i item ai
              item.wait_duration_s
              ⟨st.events ++ [Event.sleep 5]
                  ++ [Event.callFinishItem mid i none],
                st.k + 1, st.clock + 5, some a', am'⟩)
    · rcases ai.remain_time st.clock with _ | rt <;> (try dsimp only)
      · exact List.prefix_refl _
      · rcases item.wait_duration_s with _ | dur <;> (try dsimp only)
        · exact List.prefix_refl _
        · exact itemTail_mono ..

theorem itemLoop_mono (mid : String)
    (answers : String → Option (List String))
    (oracle : Nat → Option AccountData) :
    ∀ (l : List (Nat × MissionItem)) (st : St),
      st.events <+: (itemLoop mid answers oracle l st).1.events
  | [], st => List.prefix_refl _
  | (i, item) :: rest, st => by
    rw [itemLoop]
    obtain ⟨st', c, hst⟩ :
        ∃ st' c, itemStep mid answers oracle i item st = (st', c) :=
      ⟨_, _, rfl⟩
    have h1 : st.events <+: st'.events := by
      have := itemStep_mono mid answers oracle i item st
      rwa [hst] at this
    rw [hst]
    cases c
    · exact h1.trans (itemLoop_mono mid answers oracle rest st')
    · exact h1

theorem finishPhase_mono (mid : String)
    (oracle : Nat → Option AccountData) (st : St) :
    st.events <+: (finishPhase mid oracle st).1 := by
  unfold finishPhase
  by_cases hall : st.activeMission.items.all (fun it => it.verified) = true <;>
    simp only [hall, if_true, if_false, ite_true, ite_false]
  · rcases oracle st.k with _ | a' <;> (try dsimp only) <;>
      exact (List.prefix_append _ _).trans (List.prefix_append _ _)
  · exact List.prefix_refl _

theorem mainRun_mono (mission : Mission)
    (answers : String → Option (List String))
    (oracle : Nat → Option AccountData) (st : St) :
    st.events <+: (mainRun mission answers oracle st).1 := by
  unfold mainRun
  obtain ⟨st', c, hst⟩ :
      ∃ st' c, itemLoop mission.id answers oracle mission.items.enum st
        = (st', c) := ⟨_, _, rfl⟩
  have h1 : st.events <+: st'.events := by
    have := itemLoop_mono mission.id answers oracle mission.items.enum st
    rwa [hst] at this
  rw [hst]
  cases c
  · exact h1.trans (finishPhase_mono ..)
  · exact h1

/-- C4: for an active mission whose item 0 has required wait 60 s, needs
no answer, and is started but unverified with its verification timestamp
70 s in the past, the driver computes elapsed time 70 and wait
`60 - 70 = -10 ≤ 0`, performs no sleep before the item, and its first
recorded action is the finish-item call for item 0. -/
theorem driver_elapsed_item_no_sleep (mission : Mission) (a0 : AccountData)
    (answers : String → Option (List String))
    (oracle : Nat → Option AccountData) (now : Int)
    (am : ActiveMission) (item0 : MissionItem) (ai0 : ActiveMissionItem)
    (hact : get_active_missions a0 mission.id = some am)
    (hitem : mission.items.get? 0 = some item0)
    (hai : am.items.get? 0 = some ai0)
    (hw : item0.wait_duration_s = some 60)
    (hreq : item0.require_answer = false)
    (hv : ai0.verified = false)
    (hvat : ai0.verified_at = some (now - 70)) :
    ai0.remain_time now = some 70 ∧
    item0.wait_duration_s.map (fun d => d - 70) = some (-10) ∧
    ∃ rest, (complete_cinema_mission mission a0 answers oracle now).1
      = Event.callFinishItem mission.id 0 none :: rest := by
  have hr70 : now - (now - 70) = 70 := by omega
  have hremain : ai0.remain_time now = some 70 := by
    simp [ActiveMissionItem.remain_time, hvat, hr70]
  refine ⟨hremain, by simp [hw], ?_⟩
  obtain ⟨tl, htl⟩ : ∃ tl, mission.items = item0 :: tl := by
    cases hmi : mission.items with
    | nil => rw [hmi] at hitem; exact absurd hitem (by simp)
    | cons x xs =>
      rw [hmi, List.get?_cons_zero] at hitem
      exact ⟨xs, by rw [Option.some.injEq] at hitem; rw [hitem]⟩
  have hdrv : complete_cinema_mission mission a0 answers oracle now
      = mainRun mission answers oracle ⟨[], 0, now, some a0, am⟩ := by
    simp [complete_cinema_mission, hact]
  rw [hdrv]
  have hstep : (itemStep mission.id answers oracle 0 item0
      ⟨[], 0, now, some a0, am⟩).1.events
      = [Event.callFinishItem mission.id 0 none] := by
    unfold itemStep
    have hai' : (St.mk [] 0 now (some a0) am).activeMission.items.get? 0
        = some ai0 := hai
    rw [hai']
    dsimp only
    have hcond : (!ai0.verified && !ai0.is_started) = false := by
      simp [hv, ActiveMissionItem.is_started, hvat]
    rw [hcond]
    simp only [Bool.false_eq_true, if_false]
    have hrem : ai0.remain_time (St.mk [] 0 now (some a0) am).clock
        = some 70 := hremain
    rw [hrem]
    dsimp only
    rw [hw]
    dsimp only
    unfold itemTail
    rw [hreq]
    simp only [Bool.false_eq_true, if_false]
    unfold itemWait
    dsimp only
    rw [if_neg (by omega : ¬(0 : Int) < 60 - 70)]
    rw [if_neg (by simp [hv] : ¬ai0.verified = true)]
    dsimp only
    rcases oracle (St.mk [] 0 now (some a0) am).k with _ | a' <;>
      (try dsimp only)
    · rfl
    · rcases get_active_missions a' mission.id with _ | am' <;>
        (try dsimp only) <;> rfl
  unfold mainRun
  rw [htl, List.enum_cons]
  simp only [itemLoop]
  obtain ⟨st', c, hst⟩ : ∃ st' c, itemStep mission.id answers oracle 0 item0
      ⟨[], 0, now, some a0, am⟩ = (st', c) := ⟨_, _, rfl⟩
  have hev : st'.events = [Event.callFinishItem mission.id 0 none] := by
    rw [hst] at hstep
    exact hstep
  rw [hst]
  cases c with
  | none =>
    dsimp only
    obtain ⟨st'', c', hl⟩ : ∃ st'' c',
        itemLoop mission.id answers oracle (tl.enumFrom 1) st' = (st'', c') :=
      ⟨_, _, rfl⟩
    have hp1 : st'.events <+: st''.events := by
      have := itemLoop_mono mission.id answers oracle (tl.enumFrom 1) st'
      rwa [hl] at this
    rw [hl]
    cases c' with
    | none =>
      dsimp only
      obtain ⟨d, hd⟩ := hp1.trans (finishPhase_mono mission.id oracle st'')
      exact ⟨d, by rw [← hd, hev]; rfl⟩
    | some c'' =>
      dsimp only
      obtain ⟨d, hd⟩ := hp1
      exact ⟨d, by rw [← hd, hev]; rfl⟩
  | some c0 =>
    dsimp only
    exact ⟨[], by rw [hev]⟩

theorem driver_elapsed_item_no_sleep_witness :
    (⟨"w", false, some (-70)⟩ : ActiveMissionItem).remain_time 0 = some 70 ∧
    (⟨"a", false, none, some 60⟩ : MissionItem).wait_duration_s.map
      (fun d => d - 70) = some (-10) ∧
    ∃ rest, (complete_cinema_mission
        ⟨"M1500", none, none, [⟨"a", false, none, some 60⟩], none⟩
        ⟨[], [], [⟨"M1500", [⟨"w", false, some (-70)⟩]⟩], 0⟩
        (fun _ => none) (fun _ => none) 0).1
      = Event.callFinishItem "M1500" 0 none :: rest := by
  have := driver_elapsed_item_no_sleep
    ⟨"M1500", none, none, [⟨"a", false, none, some 60⟩], none⟩
    ⟨[], [], [⟨"M1500", [⟨"w", false, some (-70)⟩]⟩], 0⟩
    (fun _ => none) (fun _ => none) 0
    ⟨"M1500", [⟨"w", false, some (-70)⟩]⟩
    ⟨"a", false, none, some 60⟩ ⟨"w", false, some (-70)⟩
    (by decide) rfl rfl rfl rfl rfl (by decide)
  exact this

/-- C5, amended: for a required-answer item whose active state is already
started (carrying its timestamp and a present wait duration), when the
answer store has no entry for the mission id the driver logs the
missing-answer warning, issues no finish-item call for that item, and
continues the loop on the remaining items from an otherwise unchanged
state.  (A not-yet-started item still receives the answerless registration
call first, and a stored answer list shorter than the index raises
`IndexError` instead of skipping — see the counterexample.) -/
theorem itemLoop_missing_answer_skips (mid : String)
    (answers : String → Option (List String))
    (oracle : Nat → Option AccountData) (i : Nat) (item : MissionItem)
    (rest : List (Nat × MissionItem)) (st : St) (ai : ActiveMissionItem)
    (dur : Int)
    (hai : st.activeMission.items.get? i = some ai)
    (hstarted : ai.is_started = true)
    (hdur : item.wait_duration_s = some dur)
    (hreq : item.require_answer = true)
    (hnoans : answers mid = none) :
    itemLoop mid answers oracle ((i, item) :: rest) st
      = itemLoop mid answers oracle rest
          { st with events := st.events ++ [Event.warnMissingAnswer i] } := by
  have hstep : itemStep mid answers oracle i item st
      = ({ st with events := st.events ++ [Event.warnMissingAnswer i] },
          none) := by
    unfold itemStep
    rw [hai]
    dsimp only
    have hcond : (!ai.verified && !ai.is_started) = false := by
      simp [hstarted]
    rw [hcond]
    simp only [Bool.false_eq_true, if_false]
    obtain ⟨v, hval⟩ := Option.isSome_iff_exists.mp hstarted
    have hrem : ai.remain_time st.clock = some (st.clock - v) := by
      simp [ActiveMissionItem.remain_time, hval]
    rw [hrem]
    dsimp only
    rw [hdur]
    dsimp only
    unfold itemTail
    rw [hreq, if_pos rfl, hnoans]
  rw [itemLoop, hstep]

theorem itemLoop_missing_answer_skips_witness :
    itemLoop "M1500" (fun _ => none) (fun _ => none)
        [(0, ⟨"a", true, none, some 0⟩)]
        ⟨[], 0, 0, none, ⟨"M1500", [⟨"w", false, some 0⟩]⟩⟩
      = itemLoop "M1500" (fun _ => none) (fun _ => none) []
          ⟨[Event.warnMissingAnswer 0], 0, 0, none,
            ⟨"M1500", [⟨"w", false, some 0⟩]⟩⟩ := by
  have := itemLoop_missing_answer_skips "M1500" (fun _ => none)
    (fun _ => none) 0 ⟨"a", true, none, some 0⟩ []
    ⟨[], 0, 0, none, ⟨"M1500", [⟨"w", false, some 0⟩]⟩⟩
    ⟨"w", false, some 0⟩ 0 rfl rfl rfl rfl rfl
  exact this

/-- C5, counterexample: item 1 requires an answer and the store holds the
mission id with a single stored answer, so the index-1 lookup
`answers[mission.id][1]` raises `IndexError`: the driver crashes instead
of logging a warning and skipping the item. -/
theorem driver_short_answer_list_crashes :
    complete_cinema_mission
        ⟨"M1500", none, none,
          [⟨"a", false, none, some 0⟩, ⟨"b", true, none, some 0⟩], none⟩
        ⟨[], [], [⟨"M1500", [⟨"w", true, some 0⟩, ⟨"q", false, some 0⟩]⟩], 0⟩
        (fun i => if i = "M1500" then some ["x"] else none)
        (fun _ => none) 0
      = ([], 0, .crash .answersIndex) := by
  decide

theorem itemWait_retInv (a0 : AccountData) (mid : String)
    (oracle : Nat → Option AccountData) (i : Nat) (ai : ActiveMissionItem)
    (answer : Option String) (waitS : Option Int) (st : St)
    (h : RetInv a0 oracle st) :
    RetInv a0 oracle (itemWait mid oracle i ai answer waitS st).1 := by
  unfold itemWait
  rcases waitS with _ | w
  · exact h
  · dsimp only
    by_cases hw : 0 < w <;> by_cases hv : ai.verified = true
    · simp only [hw, hv, if_true, ite_true]
      exact h
    · simp only [hw, hv, if_true, if_false, ite_true, ite_false]
      rcases ho : oracle st.k with _ | a' <;> (try dsimp only)
      · simp [RetInv, ho]
      · rcases get_active_missions a' mid with _ | am' <;>
          (try dsimp only) <;> simp [RetInv, ho]
    · simp only [hw, hv, if_true, if_false, ite_true, ite_false]
      exact h
    · simp only [hw, hv, if_false, ite_false]
      rcases ho : oracle st.k with _ | a' <;> (try dsimp only)
      · simp [RetInv, ho]
      · rcases get_active_missions a' mid with _ | am' <;>
          (try dsimp only) <;> simp [RetInv, ho]

theorem itemTail_retInv (a0 : AccountData) (mid : String)
    (answers : String → Option (List String))
    (oracle : Nat → Option AccountData) (i : Nat) (item : MissionItem)
    (ai : ActiveMissionItem) (waitS : Option Int) (st : St)
    (h : RetInv a0 oracle st) :
    RetInv a0 oracle (itemTail mid answers oracle i item ai waitS st).1 := by
  unfold itemTail
  by_cases hr : item.require_answer = true <;>
    simp only [hr, if_true, if_false, ite_true, ite_false]
  · rcases answers mid with _ | lst <;> (try dsimp only)
    · exact h
    · rcases lst.get? i with _ | s <;> (try dsimp only)
      · exact h
      · by_cases hs : s = "" <;>
          simp only [hs, if_true, if_false, ite_true, ite_false]
        · exact h
        · exact itemWait_retInv a0 mid oracle i ai (some s) waitS st h
  · exact itemWait_retInv a0 mid oracle i ai none waitS st h

theorem itemStep_retInv (a0 : AccountData) (mid : String)
    (answers : String → Option (List String))
    (oracle : Nat → Option AccountData) (i : Nat) (item : MissionItem)
    (st : St) (h : RetInv a0 oracle st) :
    RetInv a0 oracle (itemStep mid answers oracle i item st).1 := by
  unfold itemStep
  rcases st.activeMission.items.get? i with _ | ai <;> (try dsimp only)
  · exact h
  · by_cases hc : (!ai.verified && !ai.is_started) = true <;>
      simp only [hc, if_true, if_false, ite_true, ite_false]
    · rcases ho : oracle st.k with _ | a' <;> (try dsimp only)
      · simp [RetInv, ho]
      · rcases get_active_missions a' mid with _ | am' <;> (try dsimp only)
        · simp [RetInv, ho]
        · refine itemTail_retInv a0 mid answers oracle i item ai
            item.wait_duration_s _ ?_
          simp [RetInv, ho]
    · rcases ai.remain_time st.clock with _ | rt <;> (try dsimp only)
      · exact h
      · rcases item.wait_duration_s with _ | dur <;> (try dsimp only)
        · exact h
        · exact itemTail_retInv a0 mid answers oracle i item ai
            (some (dur - rt)) st h

theorem itemLoop_retInv (a0 : AccountData) (mid : String)
    (answers : String → Option (List String))
    (oracle : Nat → Option AccountData) :
    ∀ (l : List (Nat × MissionItem)) (st : St), RetInv a0 oracle st →
      RetInv a0 oracle (itemLoop mid answers oracle l st).1
  | [], _, h => h
  | (i, item) :: rest, st, h => by
    rw [itemLoop]
    obtain ⟨st', c, hst⟩ :
        ∃ st' c, itemStep mid answers oracle i item st = (st', c) :=
      ⟨_, _, rfl⟩
    have h1 : RetInv a0 oracle st' := by
      have := itemStep_retInv a0 mid answers oracle i item st h
      rwa [hst] at this
    rw [hst]
    cases c
    · exact itemLoop_retInv a0 mid answers oracle rest st' h1
    · exact h1

theorem finishPhase_ret (mid : String) (a0 : AccountData)
    (oracle : Nat → Option AccountData) (st : St) (ev : List Event)
    (k : Nat) (ret : Option AccountData) (hInv : RetInv a0 oracle st)
    (h : finishPhase mid oracle st = (ev, k, .ok ret)) :
    ret = if k = 0 then some a0 else oracle (k - 1) := by
  unfold finishPhase at h
  by_cases hall :
      st.activeMission.items.all (fun it => it.verified) = true
  · rw [if_pos hall] at h
    dsimp only at h
    rcases ho : oracle st.k with _ | a' <;> rw [ho] at h <;>
      dsimp only at h <;>
      rw [Prod.mk.injEq, Prod.mk.injEq] at h <;>
      obtain ⟨-, hk, hret⟩ := h <;> subst hk <;>
      rw [DriverOutcome.ok.injEq] at hret <;> subst hret <;>
      simp [Nat.add_sub_cancel, ho]
  · rw [if_neg hall] at h
    rw [Prod.mk.injEq, Prod.mk.injEq] at h
    obtain ⟨-, hk, hret⟩ := h
    subst hk
    rw [DriverOutcome.ok.injEq] at hret
    subst hret
    exact hInv

theorem mainRun_ret (mission : Mission) (a0 : AccountData)
    (answers : String → Option (List String))
    (oracle : Nat → Option AccountData) (st : St) (ev : List Event)
    (k : Nat) (ret : Option AccountData) (hInv : RetInv a0 oracle st)
    (h : mainRun mission answers oracle st = (ev, k, .ok ret)) :
    ret = if k = 0 then some a0 else oracle (k - 1) := by
  unfold mainRun at h
  obtain ⟨st', c, hl⟩ : ∃ st' c,
      itemLoop mission.id answers oracle mission.items.enum st = (st', c) :=
    ⟨_, _, rfl⟩
  have h1 : RetInv a0 oracle st' := by
    have := itemLoop_retInv a0 mission.id answers oracle
      mission.items.enum st hInv
    rwa [hl] at this
  rw [hl] at h
  cases c
  · exact finishPhase_ret mission.id a0 oracle st' ev k ret h1 h
  · exact absurd h (by simp)

/-- C1, amended: the driver's return value is whatever the `account_data`
variable last held — the input snapshot when no wrapper call was attempted,
otherwise the result of the last attempted call, which is the empty
failure dict whenever that call failed (a failed walrus call does replace
the previously obtained snapshot); the only exception is the join path
that succeeds without activating the mission, which returns the empty dict
explicitly. -/
theorem driver_returns_last_call_result (mission : Mission)
    (a0 : AccountData) (answers : String → Option (List String))
    (oracle : Nat → Option AccountData) (now : Int) (ev : List Event)
    (k : Nat) (ret : Option AccountData)
    (h : complete_cinema_mission mission a0 answers oracle now
      = (ev, k, .ok ret)) :
    ret = (if k = 0 then some a0 else oracle (k - 1)) ∨
      (k = 1 ∧ ret = none ∧ get_active_missions a0 mission.id = none) := by
  unfold complete_cinema_mission at h
  rcases hact : get_active_missions a0 mission.id with _ | am <;>
    rw [hact] at h <;> dsimp only at h
  · rcases ho : oracle 0 with _ | a1 <;> rw [ho] at h <;> dsimp only at h
    · rw [Prod.mk.injEq, Prod.mk.injEq] at h
      obtain ⟨-, hk, hret⟩ := h
      subst hk
      rw [DriverOutcome.ok.injEq] at hret
      subst hret
      left
      simp [ho]
    · rcases ha1 : get_active_missions a1 mission.id with _ | am1 <;>
        rw [ha1] at h <;> dsimp only at h
      · rw [Prod.mk.injEq, Prod.mk.injEq] at h
        obtain ⟨-, hk, hret⟩ := h
        subst hk
        rw [DriverOutcome.ok.injEq] at hret
        subst hret
        exact Or.inr ⟨rfl, rfl, rfl⟩
      · left
        refine mainRun_ret mission a0 answers oracle _ ev k ret ?_ h
        simp [RetInv, ho]
  · left
    refine mainRun_ret mission a0 answers oracle _ ev k ret ?_ h
    simp [RetInv]

theorem driver_returns_last_call_result_witness :
    ((none : Option AccountData)
        = (if 1 = 0 then some (⟨[], [], [], 0⟩ : AccountData)
           else (fun _ => none) (1 - 1))) ∨
      (1 = 1 ∧ (none : Option AccountData) = none ∧
        get_active_missions ⟨[], [], [], 0⟩
          (⟨"M1500", none, none, [], none⟩ : Mission).id = none) := by
  have := driver_returns_last_call_result ⟨"M1500", none, none, [], none⟩
    ⟨[], [], [], 0⟩ (fun _ => none) (fun _ => none) 0
    [.sleep 5, .callJoin "M1500"] 1 none (by decide)
  exact this

/-- C1, counterexample: the mission is active with one started, unverified
item and every wrapper call fails, so no call ever succeeded — yet the
driver returns the empty dict, not the input snapshot: the failed
finish-item call's walrus assignment replaced the previously obtained
snapshot. -/
theorem driver_failed_call_replaces_snapshot :
    complete_cinema_mission
        ⟨"M1500", none, none, [⟨"a", false, none, some 0⟩], none⟩
        ⟨[], [], [⟨"M1500", [⟨"w", false, some 0⟩]⟩], 0⟩
        (fun _ => none) (fun _ => none) 0
      = ([Event.callFinishItem "M1500" 0 none], 1, .ok none) ∧
    (DriverOutcome.ok none ≠ DriverOutcome.ok
      (some (⟨[], [], [⟨"M1500", [⟨"w", false, some 0⟩]⟩], 0⟩ :
        AccountData))) := by
  refine ⟨by decide, by decide⟩

theorem goodAcc_mission {a : AccountData} {am : ActiveMission}
    {mid : String} (hg : GoodAcc a = true)
    (h : get_active_missions a mid = some am) : GoodMission am = true := by
  have hmem : am ∈ a.active :=
    List.mem_reverse.mp (List.mem_of_find?_eq_some h)
  exact List.all_eq_true.mp hg am hmem

theorem itemWait_good (mid : String) (oracle : Nat → Option AccountData)
    (i : Nat) (ai : ActiveMissionItem) (answer : Option String)
    (waitS : Option Int) (st : St)
    (hOr : ∀ n a, oracle n = some a → GoodAcc a = true)
    (hg : GoodMission st.activeMission = true) :
    GoodMission (itemWait mid oracle i ai answer waitS st).1.activeMission
        = true ∧
      (itemWait mid oracle i ai answer waitS st).2
        ≠ some CrashKind.remainNone := by
  unfold itemWait
  rcases waitS with _ | w
  · exact ⟨hg, by simp⟩
  · dsimp only
    by_cases hw : 0 < w <;> by_cases hv : ai.verified = true
    · simp only [hw, hv, if_true, ite_true]
      exact ⟨hg, by simp⟩
    · simp only [hw, hv, if_true, if_false, ite_true, ite_false]
      rcases ho : oracle st.k with _ | a' <;> (try dsimp only)
      · exact ⟨hg, by simp⟩
      · rcases ha : get_active_missions a' mid with _ | am' <;>
          (try dsimp only)
        · exact ⟨hg, by simp⟩
        · exact ⟨goodAcc_mission (hOr st.k a' ho) ha, by simp⟩
    · simp only [hw, hv, if_true, if_false, ite_true, ite_false]
      exact ⟨hg, by simp⟩
    · simp only [hw, hv, if_false, ite_false]
      rcases ho : oracle st.k with _ | a' <;> (try dsimp only)
      · exact ⟨hg, by simp⟩
      · rcases ha : get_active_missions a' mid with _ | am' <;>
          (try dsimp only)
        · exact ⟨hg, by simp⟩
        · exact ⟨goodAcc_mission (hOr st.k a' ho) ha, by simp⟩

theorem itemTail_good (mid : String)
    (answers : String → Option (List String))
    (oracle : Nat → Option AccountData) (i : Nat) (item : MissionItem)
    (ai : ActiveMissionItem) (waitS : Option Int) (st : St)
    (hOr : ∀ n a, oracle n = some a → GoodAcc a = true)
    (hg : GoodMission st.activeMission = true) :
    GoodMission
        (itemTail mid answers oracle i item ai waitS st).1.activeMission
        = true ∧
      (itemTail mid answers oracle i item ai waitS st).2
        ≠ some CrashKind.remainNone := by
  unfold itemTail
  by_cases hr : item.require_answer = true <;>
    simp only [hr, if_true, if_false, ite_true, ite_false]
  · rcases answers mid with _ | lst <;> (try dsimp only)
    · exact ⟨hg, by simp⟩
    · rcases lst.get? i with _ | s <;> (try dsimp only)
      · exact ⟨hg, by simp⟩
      · by_cases hs : s = "" <;>
          simp only [hs, if_true, if_false, ite_true, ite_false]
        · exact ⟨hg, by simp⟩
        · exact itemWait_good mid oracle i ai (some s) waitS st hOr hg
  · exact itemWait_good mid oracle i ai none waitS st hOr hg

theorem itemStep_good (mid : String)
    (answers : String → Option (List String))
    (oracle : Nat → Option AccountData) (i : Nat) (item : MissionItem)
    (st : St) (hOr : ∀ n a, oracle n = some a → GoodAcc a = true)
    (hg : GoodMission st.activeMission = true) :
    GoodMission (itemStep mid answers oracle i item st).1.activeMission
        = true ∧
      (itemStep mid answers oracle i item st).2
        ≠ some CrashKind.remainNone := by
  unfold itemStep
  rcases hai : st.activeMission.items.get? i with _ | ai <;> (try dsimp only)
  · exact ⟨hg, by simp⟩
  · by_cases hc : (!ai.verified && !ai.is_started) = true <;>
      simp only [hc, if_true, if_false, ite_true, ite_false]
    · rcases ho : oracle st.k with _ | a' <;> (try dsimp only)
      · exact ⟨hg, by simp⟩
      · rcases ha : get_active_missions a' mid with _ | am' <;>
          (try dsimp only)
        · exact ⟨hg, by simp⟩
        · exact itemTail_good mid answers oracle i item ai
            item.wait_duration_s _ hOr
            (goodAcc_mission (hOr st.k a' ho) ha)
    · rcases hrt : ai.remain_time st.clock with _ | rt <;> (try dsimp only)
      · exfalso
        have hmem : ai ∈ st.activeMission.items := List.get?_mem hai
        have hgood := List.all_eq_true.mp hg ai hmem
        have hnone : ai.verified_at = none := by
          unfold ActiveMissionItem.remain_time at hrt
          rcases hv : ai.verified_at with _ | v
          · rfl
          · rw [hv] at hrt; exact absurd hrt (by simp)
        have hns : ai.is_started = false := by
          simp [ActiveMissionItem.is_started, hnone]
        have hver : ai.verified = true := by
          rcases hvb : ai.verified with _ | _
          · exfalso
            apply hc
            simp [hvb, hns]
          · rfl
        rw [hver, hnone] at hgood
        simp at hgood
      · rcases item.wait_duration_s with _ | dur <;> (try dsimp only)
        · exact ⟨hg, by simp⟩
        · exact itemTail_good mid answers oracle i item ai
            (some (dur - rt)) st hOr hg

theorem itemLoop_good (mid : String)
    (answers : String → Option (List String))
    (oracle : Nat → Option AccountData)
    (hOr : ∀ n a, oracle n = some a → GoodAcc a = true) :
    ∀ (l : List (Nat × MissionItem)) (st : St),
      GoodMission st.activeMission = true →
      GoodMission (itemLoop mid answers oracle l st).1.activeMission
          = true ∧
        (itemLoop mid answers oracle l st).2 ≠ some CrashKind.remainNone
  | [], st, hg => ⟨hg, by simp [itemLoop]⟩
  | (i, item) :: rest, st, hg => by
    rw [itemLoop]
    obtain ⟨st', c, hst⟩ :
        ∃ st' c, itemStep mid answers oracle i item st = (st', c) :=
      ⟨_, _, rfl⟩
    have hstep := itemStep_good mid answers oracle i item st hOr hg
    rw [hst] at hstep
    rw [hst]
    cases c
    · exact itemLoop_good mid answers oracle hOr rest st' hstep.1
    · exact hstep

theorem finishPhase_not_crash (mid : String)
    (oracle : Nat → Option AccountData) (st : St) (c : CrashKind) :
    (finishPhase mid oracle st).2.2 ≠ DriverOutcome.crash c := by
  unfold finishPhase
  by_cases hall :
      st.activeMission.items.all (fun it => it.verified) = true
  · rw [if_pos hall]
    dsimp only
    rcases oracle st.k with _ | a' <;> (try dsimp only) <;> simp
  · rw [if_neg hall]
    simp

theorem mainRun_good (mission : Mission)
    (answers : String → Option (List String))
    (oracle : Nat → Option AccountData) (st : St)
    (hOr : ∀ n a, oracle n = some a → GoodAcc a = true)
    (hg : GoodMission st.activeMission = true) :
    (mainRun mission answers oracle st).2.2
      ≠ DriverOutcome.crash CrashKind.remainNone := by
  unfold mainRun
  obtain ⟨st', c, hl⟩ : ∃ st' c,
      itemLoop mission.id answers oracle mission.items.enum st = (st', c) :=
    ⟨_, _, rfl⟩
  have hloop := itemLoop_good mission.id answers oracle hOr
    mission.items.enum st hg
  rw [hl] at hloop
  rw [hl]
  cases c with
  | none => exact finishPhase_not_crash mission.id oracle st' _
  | some c' =>
    dsimp only
    intro heq
    apply hloop.2
    rw [DriverOutcome.crash.injEq] at heq
    rw [heq]

/-- C10: the elapsed-time computation `remain_time` is reached only for
items that are verified or started; under the precondition that every
snapshot (input and every successful call result) reports verified items
with their verification timestamp present, its undefined branch
(`verified_at` absent, a `TypeError` in Python) is unreachable: the driver
never raises it. -/
theorem driver_remain_time_defined (mission : Mission) (a0 : AccountData)
    (answers : String → Option (List String))
    (oracle : Nat → Option AccountData) (now : Int)
    (h0 : GoodAcc a0 = true)
    (hOr : ∀ n a, oracle n = some a → GoodAcc a = true) :
    (complete_cinema_mission mission a0 answers oracle now).2.2
      ≠ DriverOutcome.crash CrashKind.remainNone := by
  unfold complete_cinema_mission
  rcases hact : get_active_missions a0 mission.id with _ | am <;>
    (try dsimp only)
  · rcases ho : oracle 0 with _ | a1 <;> (try dsimp only)
    · simp
    · rcases ha1 : get_active_missions a1 mission.id with _ | am1 <;>
        (try dsimp only)
      · simp
      · exact mainRun_good mission answers oracle _ hOr
          (goodAcc_mission (hOr 0 a1 ho) ha1)
  · exact mainRun_good mission answers oracle _ hOr
      (goodAcc_mission h0 hact)

theorem driver_remain_time_defined_witness :
    (complete_cinema_mission
        ⟨"M1500", none, none, [⟨"a", false, none, some 0⟩], none⟩
        ⟨[], [], [⟨"M1500", [⟨"w", true, some 0⟩]⟩], 0⟩
        (fun _ => none) (fun _ => none) 0).2.2
      ≠ DriverOutcome.crash CrashKind.remainNone := by
  have := driver_remain_time_defined
    ⟨"M1500", none, none, [⟨"a", false, none, some 0⟩], none⟩
    ⟨[], [], [⟨"M1500", [⟨"w", true, some 0⟩]⟩], 0⟩
    (fun _ => none) (fun _ => none) 0 (by decide)
    (fun n a h => Option.noConfusion h)
  exact this

theorem cinema_missions_ordinal_witness :
    (⟨"M1500", none, none, [], none⟩ : Mission).num = specNum "M1500" ∧
      ((⟨"M1500", none, none, [], none⟩ : Mission) ∈
          ([⟨"M1500", none, none, [], none⟩] : List Mission) ↔
        1000 ≤ ((⟨"M1500", none, none, [], none⟩ : Mission).num).getD 0) := by
  have := cinema_missions_ordinal
    ⟨[⟨"M999", none, none, [], none⟩, ⟨"M1500", none, none, [], none⟩],
      [], [], 0⟩
    [⟨"M1500", none, none, [], none⟩] ⟨"M1500", none, none, [], none⟩ "1500"
    (by decide) (by decide) rfl (by decide)
  exact this

end Cinema
